import Mathlib

/-!
Verification of the core of the `defi-protocol-tvl-tracker` repository: the
multi-provider TVL normalisation and caching engine.  The Python sources are
embedded shallowly:

* pure string/number manipulation becomes Lean functions on `String`/`ℚ`
  (floating point numbers are modelled as exact rationals);
* Python dictionaries holding JSON data become either a `Json` inductive
  (where arbitrary shapes matter, e.g. the cache files) or typed structures
  with `Option` fields for optional keys (where the documented upstream
  schema applies);
* network transports are oracle parameters of type `Except`/custom sums:
  the adapter functions receive the outcome of the HTTP call as an argument;
* the file cache is threaded explicitly: each fetch receives the cached
  value for its key (already `None` when the file is absent) and returns the
  list of (key, payload) writes it performs;
* a Python function that can raise an uncaught exception returns a
  `PyOutcome`/`Except` value whose error case records the raise.
-/

namespace Tvl

/-- Python `s.lower()` (ASCII case folding, which is all the repo uses). -/
def lowerStr (s : String) : String :=
  String.mk (s.data.map Char.toLower)

/-- Python `needle in hay` for strings: substring containment. -/
def pyIn (needle hay : String) : Bool :=
  decide (needle.data <:+: hay.data)

/-- Python truthiness for an optional string argument: `None` and `""` are
falsy, so exactly the branches guarded by `if token_pair:` / `if chain:`
run when this returns `some`. -/
def pyTruthy : Option String → Option String
  | some s => if s = "" then none else some s
  | none => none

/-- Python `s.capitalize()`: first character upper-cased, rest lower-cased
(used for DefiLlama chain keys, e.g. `"sonic" → "Sonic"`). -/
def pyCapitalize (s : String) : String :=
  match s.data with
  | [] => ""
  | c :: rest => String.mk (c.toUpper :: rest.map Char.toLower)

/-- Python `s[-n:]`: the last `n` characters of a string (all of it when
shorter than `n`). -/
def lastChars (n : Nat) (s : String) : String :=
  String.mk (s.data.drop (s.data.length - n))

/-- Split a character list at every occurrence of `c`, keeping empty
segments — the semantics of Python `str.split(sep)` for a one-character
separator. -/
def splitOnCharList (c : Char) : List Char → List (List Char)
  | [] => [[]]
  | x :: xs =>
    let r := splitOnCharList c xs
    if x = c then [] :: r
    else
      match r with
      | h :: t => (x :: h) :: t
      | [] => [[x]]

/-- Python `token_pair.split("/")` (the code's `if "/" in token_pair` guard
is redundant: splitting a string without the separator yields the singleton
list, exactly Python's behaviour). -/
def pySplitSlash (s : String) : List String :=
  (splitOnCharList '/' s.data).map String.mk

/-- JSON values, used where the code manipulates payloads of unconstrained
shape (cache files, GraphQL response envelopes). -/
inductive Json where
  | null
  | bool (b : Bool)
  | num (q : ℚ)
  | str (s : String)
  | arr (elems : List Json)
  | obj (fields : List (String × Json))

/-- Python `d.get(key)` on a JSON object's field list. -/
def lookupField (fields : List (String × Json)) (key : String) : Option Json :=
  List.lookup key fields

/-- State of one cache file as found on disk, from the point of view of
`ProviderBase._get_cached_data`: absent, unreadable, undecodable, or
holding a decoded JSON value. -/
inductive CacheFileState where
  | missing
  | readError
  | badJson
  | content (j : Json)

/-- Outcome of a Python call: a normal return, or an uncaught exception
escaping to the caller. -/
inductive PyOutcome (α : Type) where
  | ret (a : α)
  | raised (exc : String)

/-- Numeric value Python obtains from the stored `timestamp` field in
`time.time() - cache_data.get("timestamp", 0)`: JSON numbers and booleans
are usable (bools are ints in Python), a missing key defaults to `0`, and
any other shape makes the subtraction raise `TypeError`. -/
def timestampVal : Option Json → Option ℚ
  | none => some 0
  | some (Json.num q) => some q
  | some (Json.bool b) => some (if b then 1 else 0)
  | some _ => none

/-- ProviderBase._get_cached_data: returns the cached payload, or `none` on
miss/expiry.  The `except` clause catches only `json.JSONDecodeError`,
`KeyError` and `IOError`; a decoded value that is not a JSON object makes
`cache_data.get(...)` raise an uncaught `AttributeError`, and a
non-numeric `timestamp` value makes the subtraction raise `TypeError`. -/
def getCachedData (file : CacheFileState) (now : ℚ) (ttl : Int) :
    PyOutcome (Option Json) :=
  match file with
  | CacheFileState.missing => PyOutcome.ret none
  | CacheFileState.readError => PyOutcome.ret none
  | CacheFileState.badJson => PyOutcome.ret none
  | CacheFileState.content j =>
    match j with
    | Json.obj fields =>
      match timestampVal (lookupField fields "timestamp") with
      | some ts =>
        if now - ts > (ttl : ℚ) then PyOutcome.ret none
        else PyOutcome.ret (lookupField fields "data")
      | none => PyOutcome.raised "TypeError"
    | _ => PyOutcome.raised "AttributeError"

/-- The uniform result shape `{status, count, data}` returned by every
provider fetch and by the merge layer. -/
structure ResultSet (α : Type) where
  status : String
  count : Nat
  data : List α
deriving DecidableEq

/-- One iteration of the accumulation loop in `tracker.merge_tvl_data` for
an input in the `{status, count, data}` format: records are appended and
the count bumped only when the input's status is `"success"` and its data
list is non-empty (Python truthiness of the list). -/
def mergeStep {α : Type} (acc : ResultSet α) (s : ResultSet α) : ResultSet α :=
  if s.status == "success" && !s.data.isEmpty then
    { acc with data := acc.data ++ s.data, count := acc.count + s.data.length }
  else acc

/-- tracker.merge_tvl_data restricted to inputs in the `{status, count,
data}` result-set format (such dicts always take the first branch of the
Python loop; the legacy dict-of-pools branch is unreachable for them).
The accumulator starts as `{"status": "success", "count": 0, "data": []}`
and its status field is never assigned again. -/
def merge_tvl_data {α : Type} (sets : List (ResultSet α)) : ResultSet α :=
  sets.foldl mergeStep { status := "success", count := 0, data := [] }

/-- Outcome of the HTTP POST issued by a GraphQL client, after
`raise_for_status()` and `.json()`: either a `requests` failure (network
error or non-2xx status) or a decoded 2xx body. -/
inductive HttpResult where
  | failure (msg : String)
  | body (j : Json)

/-- Error raised by a Python call: an explicit `raise Exception(msg)`, or an
uncaught runtime error produced by dynamic typing (`TypeError` /
`AttributeError`). -/
inductive PyErr where
  | exc (msg : String)
  | runtimeError (kind : String)
deriving DecidableEq

/-- KingdomSubgraphProvider._execute_query: wraps transport failures in an
exception and returns any decoded 2xx body unchanged — the body is never
inspected for a GraphQL `errors` array. -/
def kingdomExecuteQuery (resp : HttpResult) : Except PyErr Json :=
  match resp with
  | HttpResult.failure e => Except.error (PyErr.exc ("GraphQL query failed: " ++ e))
  | HttpResult.body j => Except.ok j

/-- Messages extracted by the comprehension
`[error.get("message", "Unknown error") for error in errors]` followed by
their use in `.lower()` / `", ".join(...)`: `none` when some element is not
a dict or some message value is not a string (Python then raises
`AttributeError`/`TypeError`). -/
def extractMessages (errs : List Json) : Option (List String) :=
  errs.mapM fun e =>
    match e with
    | Json.obj fs =>
      match lookupField fs "message" with
      | some (Json.str m) => some m
      | none => some "Unknown error"
      | some _ => none
    | _ => none

/-- SwapxSubgraphProvider._execute_query: wraps transport failures, and
inspects a decoded 2xx body for a top-level `errors` key.  With an `errors`
array it always raises: the authentication sub-case when any message
contains `"auth error"` case-insensitively (the raised message embeds the
first error message and tells the caller to set `GRAPH_API_KEY`), the
generic GraphQL-errors exception otherwise.  A non-array `errors` value, a
non-dict body containing `"errors"`, or a non-string message also ends in a
raise (an uncaught `TypeError`/`AttributeError` from the loop); only a body
without a top-level `"errors"` is returned as success. -/
def swapxExecuteQuery (resp : HttpResult) : Except PyErr Json :=
  match resp with
  | HttpResult.failure e => Except.error (PyErr.exc ("GraphQL query failed: " ++ e))
  | HttpResult.body j =>
    match j with
    | Json.obj fs =>
      match lookupField fs "errors" with
      | some (Json.arr errs) =>
        match extractMessages errs with
        | some msgs =>
          if msgs.any (fun m => pyIn "auth error" (lowerStr m)) then
            Except.error (PyErr.exc ("Authentication error: " ++ msgs.headD "Unknown error" ++
              ". Make sure to set the GRAPH_API_KEY environment variable."))
          else
            Except.error (PyErr.exc ("GraphQL errors: " ++ String.intercalate ", " msgs))
        | none => Except.error (PyErr.runtimeError "AttributeError")
      | some _ => Except.error (PyErr.runtimeError "TypeError")
      | none => Except.ok j
    | Json.arr xs =>
      -- Python `"errors" in result` on a list body: membership test; a hit
      -- then makes `result.get(...)` raise AttributeError.
      if xs.any (fun e => match e with | Json.str s => s == "errors" | _ => false) then
        Except.error (PyErr.runtimeError "AttributeError")
      else Except.ok j
    | Json.str s =>
      -- substring membership on a string body, then `.get` raises on a hit
      if pyIn "errors" s then Except.error (PyErr.runtimeError "AttributeError")
      else Except.ok j
    | _ => Except.error (PyErr.runtimeError "TypeError")

/-- One raw pool row of the DefiLlama `/pools` endpoint, following the
documented upstream schema (`none` models a missing key; a JSON `null`
value is folded into `none` as the code neutralises both with `or ""` /
`.get` defaults on every read). -/
structure LlamaRawPool where
  project : Option String
  chain : Option String
  symbol : Option String
  poolMeta : Option String
  pool : Option String
  tvlUsd : Option ℚ
  apy : Option ℚ
deriving DecidableEq

/-- Normalised record built by DefiLlamaProvider.get_pools (the fallback
path of get_protocol_tvl builds a dict without the `pool_id` key, hence the
`Option`). -/
structure LlamaPoolRec where
  protocol : String
  protocol_slug : Option String
  chain : String
  pool_name : String
  pool_id : Option String
  tvl : ℚ
  apy : ℚ
  provider : String
deriving DecidableEq

/-- Decoded body of the DefiLlama `/pools` endpoint (`{"data": [...]}`; a
response without rows has an empty list — such a dict is still truthy in
Python, so a cache hit on it is used as-is). -/
structure PoolsPayload where
  data : List LlamaRawPool
deriving DecidableEq

/-- The sequential filters of DefiLlamaProvider.get_pools, applied only
when the corresponding argument is truthy: project equality, chain
equality and pool-name substring match (against `symbol` or `poolMeta`),
all case-insensitive. -/
def llamaFilterPools (pools : List LlamaRawPool)
    (protocol chain poolName : Option String) : List LlamaRawPool :=
  let fd := pools
  let fd := match pyTruthy protocol with
    | some p => fd.filter fun pool => lowerStr (pool.project.getD "") == lowerStr p
    | none => fd
  let fd := match pyTruthy chain with
    | some c => fd.filter fun pool => lowerStr (pool.chain.getD "") == lowerStr c
    | none => fd
  match pyTruthy poolName with
  | some f => fd.filter fun pool =>
      pyIn (lowerStr f) (lowerStr (pool.symbol.getD "")) ||
      pyIn (lowerStr f) (lowerStr (pool.poolMeta.getD ""))
  | none => fd

/-- The per-row normalisation of DefiLlamaProvider.get_pools: TVL converted
from raw USD to millions, pool name composed from `symbol` and an optional
`-poolMeta` suffix, the provided protocol argument recorded as slug. -/
def llamaFormatPool (protocolArg : Option String) (pool : LlamaRawPool) :
    LlamaPoolRec :=
  let base := pool.symbol.getD "Unknown"
  let name := match pool.poolMeta with
    | some m => if m = "" then base else base ++ "-" ++ m
    | none => base
  { protocol := pool.project.getD "Unknown"
    protocol_slug := protocolArg
    chain := pool.chain.getD "Unknown"
    pool_name := name
    pool_id := some (pool.pool.getD "Unknown")
    tvl := (pool.tvlUsd.getD 0) / 1000000
    apy := pool.apy.getD 0
    provider := "DefiLlama" }

/-- Filtering plus formatting plus the `{status, count, data}` envelope of
DefiLlamaProvider.get_pools. -/
def llamaPoolsResult (pd : PoolsPayload)
    (protocol chain poolName : Option String) : ResultSet LlamaPoolRec :=
  let result := (llamaFilterPools pd.data protocol chain poolName).map
    (llamaFormatPool protocol)
  { status := if result.isEmpty then "no_data" else "success"
    count := result.length
    data := result }

/-- DefiLlamaProvider.get_pools.  `cached` is the value the cache store
holds under the fixed key `"pools"` (already `none` when absent or
expired), `api` the outcome of the `GET {yields_url}/pools` transport
call; the second component lists the cache writes performed.  The cache is
consulted and written only when `cache_ttl > 0`, and the single cache key
does not depend on the protocol/chain/pool-name arguments — filters are
applied to the (possibly cached) payload afterwards. -/
def llamaGetPools (ttl : Int) (cached : Option PoolsPayload)
    (api : Except String PoolsPayload)
    (protocol chain poolName : Option String) :
    ResultSet LlamaPoolRec × List (String × PoolsPayload) :=
  let cachedv := if ttl > 0 then cached else none
  match cachedv with
  | some pd => (llamaPoolsResult pd protocol chain poolName, [])
  | none =>
    match api with
    | Except.error _ => ({ status := "error", count := 0, data := [] }, [])
    | Except.ok pd =>
      (llamaPoolsResult pd protocol chain poolName,
       if ttl > 0 then [("pools", pd)] else [])

/-- Decoded body of the DefiLlama `/protocol/{slug}` endpoint, reduced to
the one field the code reads (`currentChainTvls`, a chain-name → raw-USD
map). -/
structure ProtocolInfo where
  currentChainTvls : List (String × ℚ)
deriving DecidableEq

/-- DefiLlamaProvider.get_protocol_info with its own per-slug cache
(`protocol_info_{slug}`), gated by the same `cache_ttl > 0` test. -/
def llamaGetProtocolInfo (ttl : Int) (slug : String)
    (cached : Option ProtocolInfo) (api : Except String ProtocolInfo) :
    Except String ProtocolInfo × List (String × ProtocolInfo) :=
  let cachedv := if ttl > 0 then cached else none
  match cachedv with
  | some info => (Except.ok info, [])
  | none =>
    match api with
    | Except.error e => (Except.error e, [])
    | Except.ok info =>
      (Except.ok info, if ttl > 0 then [("protocol_info_" ++ slug, info)] else [])

/-- The two DefiLlama identifiers a protocol's configuration may carry
(config.PROTOCOL_CONFIG entries; `none` models a missing key). -/
structure LlamaProtoConfig where
  defillama_slug : Option String
  defillama_project : Option String

/-- DefiLlamaProvider.get_protocol_tvl.  Resolves the slug/project from the
configuration (`cfg = none` models an unknown protocol, degraded to an
empty config), tries the per-pool path first and, when that yields no
usable data, falls back to the protocol-level endpoint, synthesising one
aggregate record.  With a chain filter the fallback reads
`currentChainTvls[chain.capitalize()]`; without one it reads the literal
key `"Sonic"` (the code comment announces the protocol total instead).
Returns the result set together with the cache writes of both inner
calls. -/
def llamaGetProtocolTvl (ttl : Int) (cfg : Option LlamaProtoConfig)
    (protocol_id : String) (token_pair chain : Option String)
    (cachedPools : Option PoolsPayload) (poolsApi : Except String PoolsPayload)
    (cachedInfo : Option ProtocolInfo) (infoApi : Except String ProtocolInfo) :
    ResultSet LlamaPoolRec ×
      (List (String × PoolsPayload) × List (String × ProtocolInfo)) :=
  let slug := (cfg.bind LlamaProtoConfig.defillama_slug).getD protocol_id
  let project := (cfg.bind LlamaProtoConfig.defillama_project).getD slug
  let pools := llamaGetPools ttl cachedPools poolsApi (some project) chain token_pair
  if pools.1.status == "success" && !pools.1.data.isEmpty then
    (pools.1, (pools.2, []))
  else
    match llamaGetProtocolInfo ttl slug cachedInfo infoApi with
    | (Except.error _, infoWrites) =>
      ({ status := "error", count := 0, data := [] }, (pools.2, infoWrites))
    | (Except.ok info, infoWrites) =>
      let tvl_value := match pyTruthy chain with
        | some c => (List.lookup (pyCapitalize c) info.currentChainTvls).getD 0
        | none => (List.lookup "Sonic" info.currentChainTvls).getD 0
      let pool_name := match pyTruthy token_pair with
        | some tp => tp
        | none => "All Pools (Aggregate)"
      ({ status := "success"
         count := 1
         data := [{ protocol := project
                    protocol_slug := some slug
                    chain := (pyTruthy chain).getD "All"
                    pool_name := pool_name
                    pool_id := none
                    tvl := tvl_value / 1000000
                    apy := 0
                    provider := "DefiLlama" }] },
       (pools.2, infoWrites))

/-- One raw pool entity returned by the Kingdom subgraph query
(`id liquidity totalValueLockedUSD tick symbol volumeUSD feeTier`).
Numeric fields arrive as decimal numeral strings and are modelled by their
parsed rational value (`float(...)` on them always succeeds). -/
structure KRawPool where
  id : Option String
  liquidity : Option String
  totalValueLockedUSD : Option ℚ
  tick : Option String
  symbol : Option String
  volumeUSD : Option ℚ
  feeTier : Option String
deriving DecidableEq

/-- Normalised record built by KingdomSubgraphProvider.get_protocol_tvl
(the display-only `liquidity` string, a pretty-printed bucket of the raw
value, is omitted: no property refers to it). -/
structure KPoolRec where
  protocol : String
  protocol_slug : String
  chain : String
  pool_name : String
  pool_id : String
  tvl : ℚ
  volume_usd : ℚ
  fee_tier : String
  provider : String
  raw_data : KRawPool
deriving DecidableEq

/-- Cache key of KingdomSubgraphProvider.get_protocol_tvl:
`f"kingdom_subgraph_{protocol_id}"` with `_{token_pair}` and `_{chain}`
appended only when truthy. -/
def kingdomCacheKey (protocol_id : String) (token_pair chain : Option String) :
    String :=
  let k := "kingdom_subgraph_" ++ protocol_id
  let k := match pyTruthy token_pair with
    | some tp => k ++ "_" ++ tp
    | none => k
  match pyTruthy chain with
  | some c => k ++ "_" ++ c
  | none => k

/-- Per-pool normalisation of KingdomSubgraphProvider.get_protocol_tvl with
the default field mapping (no protocol in config.PROTOCOL_CONFIG carries a
`kingdom_subgraph` section, so `tvl → totalValueLockedUSD`,
`name → symbol`, `volume → volumeUSD` always apply).  The `chain` argument
is not used to filter: it is stamped into the record, defaulting to
`"sonic"`. -/
def kingdomFormatPool (protocol_id : String) (chain : Option String)
    (pool : KRawPool) : KPoolRec :=
  { protocol := protocol_id
    protocol_slug := protocol_id
    chain := (pyTruthy chain).getD "sonic"
    pool_name := pool.symbol.getD (pool.id.getD "Unknown")
    pool_id := pool.id.getD "Unknown"
    tvl := (pool.totalValueLockedUSD.getD 0) / 1000000
    volume_usd := match pool.volumeUSD with
      | some q => q / 1000000
      | none => 0
    fee_tier := pool.feeTier.getD "N/A"
    provider := "KingdomSubgraph"
    raw_data := pool }

/-- Formatting plus `{status, count, data}` envelope of
KingdomSubgraphProvider.get_protocol_tvl. -/
def kingdomResult (protocol_id : String) (chain : Option String)
    (pools : List KRawPool) : ResultSet KPoolRec :=
  let result := pools.map (kingdomFormatPool protocol_id chain)
  { status := if result.isEmpty then "no_data" else "success"
    count := result.length
    data := result }

/-- KingdomSubgraphProvider.get_protocol_tvl.  `cached` is the cache-store
value under this fetch's key, `api` the outcome of executing the built
GraphQL query, already reduced to the `result["data"][entity_type]` list
(`none` when the body lacks those keys, which the code turns into `[]`).
The token-pair filter only shapes the query's `where` clause (a
`symbol_contains_nocase` condition server-side); no client-side filtering
happens.  A cached empty list is falsy in Python and triggers a refetch. -/
def kingdomGetProtocolTvl (ttl : Int) (protocol_id : String)
    (token_pair chain : Option String) (cached : Option (List KRawPool))
    (api : Except String (Option (List KRawPool))) :
    ResultSet KPoolRec × List (String × List KRawPool) :=
  let key := kingdomCacheKey protocol_id token_pair chain
  let cachedv := if ttl > 0 then cached else none
  let cachedv := match cachedv with
    | some l => if l.isEmpty then none else some l
    | none => none
  match cachedv with
  | some pools => (kingdomResult protocol_id chain pools, [])
  | none =>
    match api with
    | Except.error _ => ({ status := "error", count := 0, data := [] }, [])
    | Except.ok payload =>
      let pools := payload.getD []
      (kingdomResult protocol_id chain pools,
       if ttl > 0 then [(key, pools)] else [])

/-- One raw `ichiVaults` entity returned by the SwapX subgraph query
(`id tokenA tokenB deployer vaultCount totalSupply ampFactor twapPeriod`).
`totalSupply` is a decimal numeral string; `none` models both an absent key
and a falsy (empty) value, `some q` a truthy numeral parsing to `q`. -/
structure SRawVault where
  id : Option String
  tokenA : Option String
  tokenB : Option String
  deployer : Option String
  vaultCount : Option Int
  totalSupply : Option ℚ
  ampFactor : Option String
  twapPeriod : Option String
deriving DecidableEq

/-- Normalised record built by SwapxSubgraphProvider.get_protocol_tvl (the
display-only `liquidity` string is omitted: no property refers to it). -/
structure SVaultRec where
  protocol : String
  protocol_slug : String
  chain : String
  pool_name : String
  pool_id : String
  tvl : ℚ
  fee_tier : String
  provider : String
  raw_data : SRawVault
deriving DecidableEq

/-- Cache key of SwapxSubgraphProvider.get_protocol_tvl, same shape as the
Kingdom one with the `swapx_subgraph_` prefix. -/
def swapxCacheKey (protocol_id : String) (token_pair chain : Option String) :
    String :=
  let k := "swapx_subgraph_" ++ protocol_id
  let k := match pyTruthy token_pair with
    | some tp => k ++ "_" ++ tp
    | none => k
  match pyTruthy chain with
  | some c => k ++ "_" ++ c
  | none => k

/-- SwapxSubgraphProvider._calculate_tvl_estimate: `totalSupply / 1e12`
when a truthy totalSupply is present, else `vaultCount * 0.1` (millions)
when a truthy vaultCount is present, else `0`. -/
def swapxCalcTvlEstimate (v : SRawVault) : ℚ :=
  match v.totalSupply with
  | some supply => supply / 1000000000000
  | none =>
    match v.vaultCount with
    | some c => if c ≠ 0 then (c : ℚ) * (1 / 10) else 0
    | none => 0

/-- The client-side token filter of SwapxSubgraphProvider.get_protocol_tvl:
with a `/`-separated pair both components must appear (case-insensitively)
in the respective token contract addresses, otherwise the whole filter must
appear in either address.  The match is against the addresses, not against
the synthesised pool name. -/
def swapxMatchesTokenPair (tp : String) (tokenA tokenB : String) : Bool :=
  match pySplitSlash tp with
  | [t1, t2] =>
    pyIn (lowerStr t1) (lowerStr tokenA) && pyIn (lowerStr t2) (lowerStr tokenB)
  | _ =>
    pyIn (lowerStr tp) (lowerStr tokenA) || pyIn (lowerStr tp) (lowerStr tokenB)

/-- Per-vault normalisation of SwapxSubgraphProvider.get_protocol_tvl: the
pool name is synthesised from the last six characters of each token
address, and `ampFactor` is surfaced as the fee-tier label. -/
def swapxFormatVault (protocol_id : String) (chain : Option String)
    (v : SRawVault) : SVaultRec :=
  let tokenA := v.tokenA.getD ""
  let tokenB := v.tokenB.getD ""
  let aShort := if tokenA = "" then "Unknown" else lastChars 6 tokenA
  let bShort := if tokenB = "" then "Unknown" else lastChars 6 tokenB
  { protocol := protocol_id
    protocol_slug := protocol_id
    chain := (pyTruthy chain).getD "sonic"
    pool_name := "Token-" ++ aShort ++ "/Token-" ++ bShort
    pool_id := v.id.getD "Unknown"
    tvl := swapxCalcTvlEstimate v
    fee_tier := "Amp: " ++ v.ampFactor.getD "N/A"
    provider := "SwapxSubgraph"
    raw_data := v }

/-- Client-side filtering, formatting and `{status, count, data}` envelope
of SwapxSubgraphProvider.get_protocol_tvl (the loop computes the record
and `continue`s on a filter miss, which is filtering followed by
mapping). -/
def swapxResult (protocol_id : String) (token_pair chain : Option String)
    (vaults : List SRawVault) : ResultSet SVaultRec :=
  let kept := match pyTruthy token_pair with
    | some tp => vaults.filter fun (v : SRawVault) =>
        swapxMatchesTokenPair tp (v.tokenA.getD "") (v.tokenB.getD "")
    | none => vaults
  let result := kept.map (swapxFormatVault protocol_id chain)
  { status := if result.isEmpty then "no_data" else "success"
    count := result.length
    data := result }

/-- SwapxSubgraphProvider.get_protocol_tvl, same cache/transport skeleton
as the Kingdom fetch but with SwapX's client-side token filtering. -/
def swapxGetProtocolTvl (ttl : Int) (protocol_id : String)
    (token_pair chain : Option String) (cached : Option (List SRawVault))
    (api : Except String (Option (List SRawVault))) :
    ResultSet SVaultRec × List (String × List SRawVault) :=
  let key := swapxCacheKey protocol_id token_pair chain
  let cachedv := if ttl > 0 then cached else none
  let cachedv := match cachedv with
    | some l => if l.isEmpty then none else some l
    | none => none
  match cachedv with
  | some vaults => (swapxResult protocol_id token_pair chain vaults, [])
  | none =>
    match api with
    | Except.error _ => ({ status := "error", count := 0, data := [] }, [])
    | Except.ok payload =>
      let vaults := payload.getD []
      (swapxResult protocol_id token_pair chain vaults,
       if ttl > 0 then [(key, vaults)] else [])

/-- The implicit well-formedness invariant of every returned result set:
the count mirrors the data length, the status is one of the three
documented values, and an error status comes with an empty data list. -/
def wellFormed {α : Type} (r : ResultSet α) : Prop :=
  r.count = r.data.length ∧
  (r.status = "success" ∨ r.status = "no_data" ∨ r.status = "error") ∧
  (r.status = "error" → r.data = [])

/-- The filter-dependent tail both subgraph cache keys append after the
protocol id (named here to state key facts; the adapters build it by the
two conditional `+=` steps). -/
def keySuffix (tp c : Option String) : String :=
  (match pyTruthy tp with
   | some t => "_" ++ t
   | none => "") ++
  (match pyTruthy c with
   | some cc => "_" ++ cc
   | none => "")

/-! Helper lemmas. -/

theorem string_mk_append (a b : List Char) :
    String.mk a ++ String.mk b = String.mk (a ++ b) := rfl

theorem mergeFold (sets : List (ResultSet α)) (acc : ResultSet α) :
    sets.foldl mergeStep acc =
      { status := acc.status
        count := acc.count +
          ((sets.filter fun s => s.status == "success").map ResultSet.data).flatten.length
        data := acc.data ++
          ((sets.filter fun s => s.status == "success").map ResultSet.data).flatten } := by
  induction sets generalizing acc with
  | nil => simp
  | cons s rest ih =>
    rw [List.foldl_cons, ih]
    by_cases hs : s.status = "success"
    · by_cases hd : s.data.isEmpty
      · have hd' : s.data = [] := List.isEmpty_iff.mp hd
        simp [mergeStep, hs, hd, List.filter_cons, hd']
      · simp [mergeStep, hs, hd, List.filter_cons, Nat.add_assoc, List.append_assoc]
    · simp [mergeStep, hs, List.filter_cons]

/-- C1: merge_tvl_data concatenates, in input order, the record lists of
the inputs whose status is "success", its count is the total length of
those lists, and — contrary to the claim — its overall status is the
constant "success" even when no input succeeded, because the accumulator's
status field is initialised to "success" and never reassigned. -/
theorem merge_concatenates_and_status_always_success
    {α : Type} (sets : List (ResultSet α)) :
    (merge_tvl_data sets).data =
      ((sets.filter fun s => s.status == "success").map ResultSet.data).flatten ∧
    (merge_tvl_data sets).count =
      ((sets.filter fun s => s.status == "success").map ResultSet.data).flatten.length ∧
    (merge_tvl_data sets).status = "success" := by
  rw [merge_tvl_data, mergeFold]
  simp

/-- C1 counterexample: merging a list whose only members have status
"error" and "no_data" yields overall status "success", not the "no_data"
the claim requires. -/
theorem merge_all_failed_status_not_no_data :
    (merge_tvl_data [ResultSet.mk "error" 0 ([] : List Nat),
                     ResultSet.mk "no_data" 0 []]).status = "success" ∧
    (merge_tvl_data [ResultSet.mk "error" 0 ([] : List Nat),
                     ResultSet.mk "no_data" 0 []]).status ≠ "no_data" := by
  constructor <;> decide

/-- C2: for two result sets that both carry status "success" and whose
count fields agree with their record-list lengths, the merge of [A, B] has
count A.count + B.count and data exactly A.records ++ B.records, order
preserved, no deduplication. -/
theorem merge_pair_additive_order_preserving
    {α : Type} (A B : ResultSet α)
    (hA : A.status = "success") (hB : B.status = "success")
    (hcA : A.count = A.data.length) (hcB : B.count = B.data.length) :
    (merge_tvl_data [A, B]).count = A.count + B.count ∧
    (merge_tvl_data [A, B]).data = A.data ++ B.data := by
  rw [merge_tvl_data, mergeFold]
  simp [List.filter_cons, hA, hB, hcA, hcB]

/-- C2 witness: the general theorem applied at two concrete singleton
result sets. -/
theorem merge_pair_additive_witness :
    (merge_tvl_data [ResultSet.mk "success" 1 [0],
                     ResultSet.mk "success" 1 [(1 : Nat)]]).count =
        (ResultSet.mk "success" 1 [(0 : Nat)]).count +
        (ResultSet.mk "success" 1 [(1 : Nat)]).count ∧
    (merge_tvl_data [ResultSet.mk "success" 1 [0],
                     ResultSet.mk "success" 1 [(1 : Nat)]]).data =
        (ResultSet.mk "success" 1 [(0 : Nat)]).data ++
        (ResultSet.mk "success" 1 [(1 : Nat)]).data :=
  merge_pair_additive_order_preserving _ _ rfl rfl rfl rfl

/-- C2 counterexample: merge recomputes the count from the record lists and
ignores the inputs' count fields, so for a success input whose count field
disagrees with its data length the claimed identity count = A.count +
B.count fails. -/
theorem merge_pair_count_ignores_input_count :
    (merge_tvl_data [ResultSet.mk "success" 5 ([] : List Nat),
                     ResultSet.mk "success" 0 []]).count ≠
      (ResultSet.mk "success" 5 ([] : List Nat)).count +
      (ResultSet.mk "success" 0 ([] : List Nat)).count := by
  decide

/-- C3: for a cache entry decoding to a JSON object whose timestamp field
holds t, a positive TTL makes the get operation return a miss exactly when
now - t is strictly above the TTL — no matter what else the object holds —
while at the boundary now - t = ttl the stored payload (the object's data
field) is still returned. -/
theorem cache_expiry_strict_boundary
    (fields : List (String × Json)) (t now : ℚ) (ttl : Int) (_httl : 0 < ttl)
    (hts : lookupField fields "timestamp" = some (Json.num t)) :
    (now - t > (ttl : ℚ) →
      getCachedData (CacheFileState.content (Json.obj fields)) now ttl =
        PyOutcome.ret none) ∧
    (now - t = (ttl : ℚ) →
      getCachedData (CacheFileState.content (Json.obj fields)) now ttl =
        PyOutcome.ret (lookupField fields "data")) := by
  constructor <;> intro h <;>
    simp only [getCachedData, hts, timestampVal]
  · simp [h]
  · simp [h]

/-- C3 witness: the boundary theorem applied at a concrete entry, once past
the TTL and once exactly at it. -/
theorem cache_expiry_strict_boundary_witness :
    getCachedData (CacheFileState.content (Json.obj
        [("timestamp", Json.num 0), ("data", Json.str "p")])) 10 5 =
      PyOutcome.ret none ∧
    getCachedData (CacheFileState.content (Json.obj
        [("timestamp", Json.num 0), ("data", Json.str "p")])) 5 5 =
      PyOutcome.ret (some (Json.str "p")) := by
  constructor
  · exact (cache_expiry_strict_boundary [("timestamp", Json.num 0), ("data", Json.str "p")] 0 10 5 (by norm_num) rfl).1 (by norm_num)
  · exact (cache_expiry_strict_boundary [("timestamp", Json.num 0), ("data", Json.str "p")] 0 5 5 (by norm_num) rfl).2 (by norm_num)

/-- C9: a cache file holding valid JSON that is not an object — here the
array [1, 2, 3] — makes the get operation raise an uncaught AttributeError
instead of reporting a miss: the except clause catches only
JSONDecodeError, KeyError and IOError, contradicting its own comment that
any error yields a refetch.  Undecodable bytes, by contrast, are handled
as the claim states. -/
theorem cache_nonobject_json_raises :
    getCachedData (CacheFileState.content
        (Json.arr [Json.num 1, Json.num 2, Json.num 3])) 0 3600 =
      PyOutcome.raised "AttributeError" ∧
    getCachedData CacheFileState.badJson 0 3600 = PyOutcome.ret none :=
  ⟨rfl, rfl⟩

theorem string_data_inj {a b : String} (h : a.data = b.data) : a = b :=
  congrArg String.mk h

theorem pyIn_iff {n h : String} : pyIn n h = true ↔ n.data <:+: h.data := by
  simp [pyIn]

theorem isInfix_of_nil (l : List Char) : ([] : List Char) <:+: l :=
  ⟨[], l, by simp⟩

theorem isInfix_append_l {l₁ l₂ : List Char} (l₃ : List Char)
    (h : l₁ <:+: l₂) : l₁ <:+: l₂ ++ l₃ := by
  obtain ⟨s, t, rfl⟩ := h
  exact ⟨s, t ++ l₃, by simp⟩

theorem isInfix_append_r {l₁ l₃ : List Char} (l₂ : List Char)
    (h : l₁ <:+: l₃) : l₁ <:+: l₂ ++ l₃ := by
  obtain ⟨s, t, rfl⟩ := h
  exact ⟨l₂ ++ s, t, by simp⟩

theorem lowerStr_append (a b : String) :
    lowerStr (a ++ b) = lowerStr a ++ lowerStr b := by
  apply string_data_inj
  simp [lowerStr, String.data_append]

theorem eq_empty_of_lowerStr_eq_empty {c : String} (h : lowerStr c = "") :
    c = "" := by
  have hd := congrArg String.data h
  simp only [lowerStr] at hd
  have : c.data = [] := List.map_eq_nil_iff.mp hd
  cases c
  simp_all

theorem pyTruthy_some {o : Option String} {c : String}
    (h : pyTruthy o = some c) : o = some c ∧ c ≠ "" := by
  cases o with
  | none => simp [pyTruthy] at h
  | some s =>
    by_cases hs : s = "" <;> simp [pyTruthy, hs] at h
    subst h
    exact ⟨rfl, hs⟩

/-- C5: only the SwapX GraphQL client inspects the decoded body: whenever
the body is an object with a top-level errors array, it raises rather than
returning success, and when any error message contains the substring "auth
error" case-insensitively it raises the authentication sub-case whose
message instructs the caller to set GRAPH_API_KEY; the Kingdom client, by
contrast, returns every decoded 2xx body unchanged, never looking at an
errors array. -/
theorem graphql_errors_swapx_only :
    (∀ (fs : List (String × Json)) (errs : List Json),
      lookupField fs "errors" = some (Json.arr errs) →
      ∃ e, swapxExecuteQuery (HttpResult.body (Json.obj fs)) = Except.error e) ∧
    (∀ (fs : List (String × Json)) (errs : List Json) (msgs : List String),
      lookupField fs "errors" = some (Json.arr errs) →
      extractMessages errs = some msgs →
      msgs.any (fun m => pyIn "auth error" (lowerStr m)) = true →
      swapxExecuteQuery (HttpResult.body (Json.obj fs)) =
        Except.error (PyErr.exc ("Authentication error: " ++
          msgs.headD "Unknown error" ++
          ". Make sure to set the GRAPH_API_KEY environment variable."))) ∧
    (∀ j : Json, kingdomExecuteQuery (HttpResult.body j) = Except.ok j) := by
  refine ⟨?_, ?_, fun j => rfl⟩
  · intro fs errs h
    simp only [swapxExecuteQuery, h]
    cases hm : extractMessages errs with
    | none => exact ⟨_, rfl⟩
    | some msgs =>
      by_cases ha : msgs.any (fun m => pyIn "auth error" (lowerStr m)) = true
      · simp [ha]
      · simp [ha]
  · intro fs errs msgs h hm ha
    simp [swapxExecuteQuery, h, hm, ha]

/-- C5 witness: the SwapX client raising the authentication sub-case on a
concrete errors body, via the general theorem. -/
theorem graphql_errors_swapx_only_witness :
    swapxExecuteQuery (HttpResult.body (Json.obj
      [("errors", Json.arr [Json.obj [("message", Json.str "Auth Error: bad key")]])])) =
    Except.error (PyErr.exc ("Authentication error: " ++
      "Auth Error: bad key" ++
      ". Make sure to set the GRAPH_API_KEY environment variable.")) :=
  graphql_errors_swapx_only.2.1
    [("errors", Json.arr [Json.obj [("message", Json.str "Auth Error: bad key")]])]
    [Json.obj [("message", Json.str "Auth Error: bad key")]]
    ["Auth Error: bad key"] rfl rfl (by decide)

/-- C5 counterexample: the Kingdom client applied to a body carrying a
top-level errors array (with an authentication failure message, no less)
returns it as a successful result instead of raising the distinguished
error the claim requires of both subgraph clients. -/
theorem kingdom_errors_body_counterexample :
    kingdomExecuteQuery (HttpResult.body (Json.obj
      [("errors", Json.arr [Json.obj [("message", Json.str "auth error: payment required")]])])) =
    Except.ok (Json.obj
      [("errors", Json.arr [Json.obj [("message", Json.str "auth error: payment required")]])]) :=
  rfl

theorem mem_llamaFilter_poolName {pools : List LlamaRawPool}
    {p c pn : Option String} {f : String} (hf : pyTruthy pn = some f)
    {pool : LlamaRawPool} (h : pool ∈ llamaFilterPools pools p c pn) :
    (pyIn (lowerStr f) (lowerStr (pool.symbol.getD "")) ||
     pyIn (lowerStr f) (lowerStr (pool.poolMeta.getD ""))) = true := by
  unfold llamaFilterPools at h
  rw [hf] at h
  exact (List.mem_filter.mp h).2

theorem mem_llamaFilter_chain {pools : List LlamaRawPool}
    {p c pn : Option String} {cc : String} (hc : pyTruthy c = some cc)
    {pool : LlamaRawPool} (h : pool ∈ llamaFilterPools pools p c pn) :
    (lowerStr (pool.chain.getD "") == lowerStr cc) = true := by
  unfold llamaFilterPools at h
  rw [hc] at h
  cases hpn : pyTruthy pn <;> rw [hpn] at h
  · exact (List.mem_filter.mp h).2
  · exact (List.mem_filter.mp (List.mem_filter.mp h).1).2

theorem llamaFormat_poolName_contains {f : String} {p : Option String}
    {pool : LlamaRawPool}
    (h : (pyIn (lowerStr f) (lowerStr (pool.symbol.getD "")) ||
          pyIn (lowerStr f) (lowerStr (pool.poolMeta.getD ""))) = true) :
    pyIn (lowerStr f) (lowerStr (llamaFormatPool p pool).pool_name) = true := by
  rw [pyIn_iff]
  rw [Bool.or_eq_true, pyIn_iff, pyIn_iff] at h
  rcases h with h | h
  · cases hsym : pool.symbol with
    | none =>
      rw [hsym] at h
      have hnil : (lowerStr f).data = [] := List.eq_nil_of_infix_nil h
      rw [hnil]
      exact isInfix_of_nil _
    | some s =>
      rw [hsym] at h
      cases hm : pool.poolMeta with
      | none => simpa [llamaFormatPool, hsym, hm] using h
      | some m =>
        by_cases hme : m = ""
        · simpa [llamaFormatPool, hsym, hm, hme] using h
        · simp only [llamaFormatPool, hsym, hm, hme, if_neg, Option.getD_some,
            ite_false]
          rw [lowerStr_append, lowerStr_append, String.data_append,
            String.data_append]
          exact isInfix_append_l _ (isInfix_append_l _ h)
  · cases hm : pool.poolMeta with
    | none =>
      rw [hm] at h
      have hnil : (lowerStr f).data = [] := List.eq_nil_of_infix_nil h
      rw [hnil]
      exact isInfix_of_nil _
    | some m =>
      rw [hm] at h
      by_cases hme : m = ""
      · subst hme
        have hnil : (lowerStr f).data = [] := List.eq_nil_of_infix_nil h
        rw [hnil]
        exact isInfix_of_nil _
      · simp only [llamaFormatPool, hm, hme, ite_false]
        rw [lowerStr_append, lowerStr_append, String.data_append,
          String.data_append]
        exact isInfix_append_r _ h

theorem llamaFormat_chain_eq {cc : String} {p : Option String}
    {pool : LlamaRawPool} (hcc : cc ≠ "")
    (h : (lowerStr (pool.chain.getD "") == lowerStr cc) = true) :
    lowerStr (llamaFormatPool p pool).chain = lowerStr cc := by
  have heq := beq_iff_eq.mp h
  cases hch : pool.chain with
  | none =>
    rw [hch] at heq
    exact absurd (eq_empty_of_lowerStr_eq_empty heq.symm) hcc
  | some s =>
    rw [hch] at heq
    simpa [llamaFormatPool, hch] using heq

theorem mem_llamaPoolsResult {pd : PoolsPayload} {p c pn : Option String}
    {r : LlamaPoolRec} (h : r ∈ (llamaPoolsResult pd p c pn).data) :
    ∃ pool, pool ∈ llamaFilterPools pd.data p c pn ∧
      r = llamaFormatPool p pool := by
  simp only [llamaPoolsResult, List.mem_map] at h
  obtain ⟨pool, hmem, hr⟩ := h
  exact ⟨pool, hmem, hr.symm⟩

theorem mem_llamaGetPools {ttl : Int} {cached : Option PoolsPayload}
    {api : Except String PoolsPayload} {p c pn : Option String}
    {r : LlamaPoolRec} (h : r ∈ (llamaGetPools ttl cached api p c pn).1.data) :
    ∃ pd, r ∈ (llamaPoolsResult pd p c pn).data := by
  unfold llamaGetPools at h
  dsimp only at h
  split at h
  · exact ⟨_, h⟩
  · split at h
    · simp at h
    · exact ⟨_, h⟩

theorem mem_kingdomGetProtocolTvl {ttl : Int} {pid : String}
    {tp ch : Option String} {cached : Option (List KRawPool)}
    {api : Except String (Option (List KRawPool))} {r : KPoolRec}
    (h : r ∈ (kingdomGetProtocolTvl ttl pid tp ch cached api).1.data) :
    ∃ pools, r ∈ (kingdomResult pid ch pools).data := by
  unfold kingdomGetProtocolTvl at h
  dsimp only at h
  split at h
  · exact ⟨_, h⟩
  · split at h
    · simp at h
    · exact ⟨_, h⟩

theorem mem_swapxGetProtocolTvl {ttl : Int} {pid : String}
    {tp ch : Option String} {cached : Option (List SRawVault)}
    {api : Except String (Option (List SRawVault))} {r : SVaultRec}
    (h : r ∈ (swapxGetProtocolTvl ttl pid tp ch cached api).1.data) :
    ∃ vaults, r ∈ (swapxResult pid tp ch vaults).data := by
  unfold swapxGetProtocolTvl at h
  dsimp only at h
  split at h
  · exact ⟨_, h⟩
  · split at h
    · simp at h
    · exact ⟨_, h⟩

theorem kingdomResult_chain {pid : String} {ch : Option String}
    {pools : List KRawPool} {r : KPoolRec}
    (h : r ∈ (kingdomResult pid ch pools).data) :
    r.chain = (pyTruthy ch).getD "sonic" := by
  simp only [kingdomResult, List.mem_map] at h
  obtain ⟨pool, _, hr⟩ := h
  rw [← hr]
  rfl

theorem swapxResult_chain {pid : String} {tp ch : Option String}
    {vaults : List SRawVault} {r : SVaultRec}
    (h : r ∈ (swapxResult pid tp ch vaults).data) :
    r.chain = (pyTruthy ch).getD "sonic" := by
  simp only [swapxResult, List.mem_map] at h
  obtain ⟨v, _, hr⟩ := h
  rw [← hr]
  rfl

/-- C4: the pool-name part of the claim holds for the aggregator adapter
only — every record it returns under a truthy pool filter has a pool_name
containing the filter case-insensitively — while the chain part holds for
all three adapters: the aggregator keeps only records whose chain equals
the filter case-insensitively, and the two subgraph adapters stamp the
chain filter value itself into every record.  The subgraph adapters do not
enforce the pool-name property: Kingdom delegates the pool filter to the
query's where clause, and SwapX matches it against token contract
addresses, from which only the last six characters reach the pool name. -/
theorem filter_claims_by_adapter :
    (∀ (ttl : Int) cached api p c pn (f : String) (r : LlamaPoolRec),
      pyTruthy pn = some f →
      r ∈ (llamaGetPools ttl cached api p c pn).1.data →
      pyIn (lowerStr f) (lowerStr r.pool_name) = true) ∧
    (∀ (ttl : Int) cached api p c pn (cc : String) (r : LlamaPoolRec),
      pyTruthy c = some cc →
      r ∈ (llamaGetPools ttl cached api p c pn).1.data →
      lowerStr r.chain = lowerStr cc) ∧
    (∀ (ttl : Int) (pid : String) tp ch (cc : String) cached api (r : KPoolRec),
      pyTruthy ch = some cc →
      r ∈ (kingdomGetProtocolTvl ttl pid tp ch cached api).1.data →
      r.chain = cc) ∧
    (∀ (ttl : Int) (pid : String) tp ch (cc : String) cached api (r : SVaultRec),
      pyTruthy ch = some cc →
      r ∈ (swapxGetProtocolTvl ttl pid tp ch cached api).1.data →
      r.chain = cc) := by
  refine ⟨?_, ?_, ?_, ?_⟩
  · intro ttl cached api p c pn f r hf hr
    obtain ⟨pd, hpd⟩ := mem_llamaGetPools hr
    obtain ⟨pool, hmem, rfl⟩ := mem_llamaPoolsResult hpd
    exact llamaFormat_poolName_contains (mem_llamaFilter_poolName hf hmem)
  · intro ttl cached api p c pn cc r hc hr
    obtain ⟨pd, hpd⟩ := mem_llamaGetPools hr
    obtain ⟨pool, hmem, rfl⟩ := mem_llamaPoolsResult hpd
    exact llamaFormat_chain_eq (pyTruthy_some hc).2 (mem_llamaFilter_chain hc hmem)
  · intro ttl pid tp ch cc cached api r hc hr
    obtain ⟨pools, hp⟩ := mem_kingdomGetProtocolTvl hr
    rw [kingdomResult_chain hp, hc]
    rfl
  · intro ttl pid tp ch cc cached api r hc hr
    obtain ⟨vaults, hv⟩ := mem_swapxGetProtocolTvl hr
    rw [swapxResult_chain hv, hc]
    rfl

/-- C4 witness: the aggregator pool-name conjunct applied to a concrete
fetch whose one pool passes the "usdc" filter through its symbol. -/
theorem filter_claims_by_adapter_witness :
    pyIn (lowerStr "usdc")
      (lowerStr (llamaFormatPool (some "aave")
        { project := some "aave", chain := some "Sonic",
          symbol := some "aUSDC", poolMeta := none, pool := some "p1",
          tvlUsd := some 1000000, apy := some 1 }).pool_name) = true :=
  filter_claims_by_adapter.1 3600 none
    (Except.ok ⟨[{ project := some "aave", chain := some "Sonic",
                   symbol := some "aUSDC", poolMeta := none, pool := some "p1",
                   tvlUsd := some 1000000, apy := some 1 }]⟩)
    (some "aave") none (some "usdc") "usdc" _ rfl (List.Mem.head _)

/-- C4 counterexample: a SwapX fetch under pool filter "0xaabb" keeps a
vault because the filter matches inside the tokenA contract address, yet
the returned record's synthesised pool name (built from the last six
characters of each address) does not contain the filter string. -/
theorem swapx_pool_name_filter_counterexample :
    ((swapxGetProtocolTvl 3600 "swapx" (some "0xaabb") none none
        (Except.ok (some [{ id := some "v1", tokenA := some "0xAABBCC112233",
                            tokenB := some "0x445566778899", deployer := none,
                            vaultCount := none, totalSupply := none,
                            ampFactor := none,
                            twapPeriod := none }]))).1.data.map SVaultRec.pool_name =
      ["Token-112233/Token-778899"]) ∧
    pyIn (lowerStr "0xaabb") (lowerStr "Token-112233/Token-778899") = false := by
  constructor <;> decide

theorem kingdomCacheKey_shape (pid : String) (tp c : Option String) :
    kingdomCacheKey pid tp c = "kingdom_subgraph_" ++ pid ++ keySuffix tp c := by
  unfold kingdomCacheKey keySuffix
  cases pyTruthy tp <;> cases pyTruthy c <;>
    simp [String.append_assoc]

theorem swapxCacheKey_shape (pid : String) (tp c : Option String) :
    swapxCacheKey pid tp c = "swapx_subgraph_" ++ pid ++ keySuffix tp c := by
  unfold swapxCacheKey keySuffix
  cases pyTruthy tp <;> cases pyTruthy c <;>
    simp [String.append_assoc]

theorem key_shape_inj {pre sfx pid pid' : String}
    (h : pre ++ pid ++ sfx = pre ++ pid' ++ sfx) : pid = pid' := by
  have hd := congrArg String.data h
  simp only [String.data_append] at hd
  exact string_data_inj (List.append_cancel_left (List.append_cancel_right hd))

/-- C6: the two subgraph adapters derive their cache key deterministically
from the adapter prefix, the protocol id and the truthy filters, so two
subgraph fetches that differ in protocol id under the same filters use
distinct keys; the aggregator adapter, however, uses the one fixed key
"pools" for every pools fetch — protocol, pool and chain filters are
applied to the retrieved payload, not encoded in the key. -/
theorem cache_keys_subgraph_vs_aggregator :
    (∀ (pid pid' : String) (tp c : Option String), pid ≠ pid' →
      kingdomCacheKey pid tp c ≠ kingdomCacheKey pid' tp c) ∧
    (∀ (pid pid' : String) (tp c : Option String), pid ≠ pid' →
      swapxCacheKey pid tp c ≠ swapxCacheKey pid' tp c) ∧
    (∀ (ttl : Int) cached api p c pn w,
      w ∈ (llamaGetPools ttl cached api p c pn).2 → w.1 = "pools") := by
  refine ⟨?_, ?_, ?_⟩
  · intro pid pid' tp c hne he
    rw [kingdomCacheKey_shape, kingdomCacheKey_shape] at he
    exact hne (key_shape_inj he)
  · intro pid pid' tp c hne he
    rw [swapxCacheKey_shape, swapxCacheKey_shape] at he
    exact hne (key_shape_inj he)
  · intro ttl cached api p c pn w hw
    unfold llamaGetPools at hw
    dsimp only at hw
    split at hw
    · simp at hw
    · split at hw
      · simp at hw
      · split at hw
        · simp at hw
          rw [hw]
        · simp at hw

/-- C6 witness: the subgraph-key conjuncts applied at two concrete
protocol ids with no filters. -/
theorem cache_keys_subgraph_vs_aggregator_witness :
    kingdomCacheKey "silo" none none ≠ kingdomCacheKey "aave" none none ∧
    swapxCacheKey "silo" none none ≠ swapxCacheKey "aave" none none :=
  ⟨cache_keys_subgraph_vs_aggregator.1 "silo" "aave" none none (by decide),
   cache_keys_subgraph_vs_aggregator.2.1 "silo" "aave" none none (by decide)⟩

/-- C6 counterexample: two aggregator fetches that differ in their protocol
component write under the same cache key "pools", so the claim that fetches
differing in protocol_id use distinct cache keys fails for the aggregator
adapter. -/
theorem llama_cache_key_constant_counterexample :
    ((llamaGetPools 3600 none (Except.ok ⟨[]⟩) (some "silo") none none).2.map
        Prod.fst =
      (llamaGetPools 3600 none (Except.ok ⟨[]⟩) (some "aave") none none).2.map
        Prod.fst) ∧
    (llamaGetPools 3600 none (Except.ok ⟨[]⟩) (some "silo") none none).2.map
        Prod.fst = ["pools"] := by
  constructor <;> decide

theorem llamaGetPools_nocache {ttl : Int} (h : ¬ ttl > 0)
    (cached : Option PoolsPayload) (api : Except String PoolsPayload)
    (p c pn : Option String) :
    llamaGetPools ttl cached api p c pn = llamaGetPools ttl none api p c pn ∧
    (llamaGetPools ttl cached api p c pn).2 = [] := by
  cases api <;> simp [llamaGetPools, h]

theorem llamaGetProtocolInfo_nocache {ttl : Int} (h : ¬ ttl > 0)
    (slug : String) (cached : Option ProtocolInfo)
    (api : Except String ProtocolInfo) :
    llamaGetProtocolInfo ttl slug cached api =
      llamaGetProtocolInfo ttl slug none api ∧
    (llamaGetProtocolInfo ttl slug cached api).2 = [] := by
  cases api <;> simp [llamaGetProtocolInfo, h]

theorem llamaGetProtocolTvl_nocache {ttl : Int} (h : ¬ ttl > 0)
    (cfg : Option LlamaProtoConfig) (pid : String) (tp ch : Option String)
    (cp : Option PoolsPayload) (papi : Except String PoolsPayload)
    (ci : Option ProtocolInfo) (iapi : Except String ProtocolInfo) :
    llamaGetProtocolTvl ttl cfg pid tp ch cp papi ci iapi =
      llamaGetProtocolTvl ttl cfg pid tp ch none papi none iapi ∧
    (llamaGetProtocolTvl ttl cfg pid tp ch cp papi ci iapi).2 = ([], []) := by
  constructor
  · cases papi <;> cases iapi <;>
      simp [llamaGetProtocolTvl, llamaGetPools, llamaGetProtocolInfo, h]
  · cases papi <;> cases iapi <;>
      simp only [llamaGetProtocolTvl, llamaGetPools, llamaGetProtocolInfo] <;>
      simp [h] <;> split <;> simp

theorem kingdomGetProtocolTvl_nocache {ttl : Int} (h : ¬ ttl > 0)
    (pid : String) (tp ch : Option String) (cached : Option (List KRawPool))
    (api : Except String (Option (List KRawPool))) :
    kingdomGetProtocolTvl ttl pid tp ch cached api =
      kingdomGetProtocolTvl ttl pid tp ch none api ∧
    (kingdomGetProtocolTvl ttl pid tp ch cached api).2 = [] := by
  cases api <;> simp [kingdomGetProtocolTvl, h]

theorem swapxGetProtocolTvl_nocache {ttl : Int} (h : ¬ ttl > 0)
    (pid : String) (tp ch : Option String) (cached : Option (List SRawVault))
    (api : Except String (Option (List SRawVault))) :
    swapxGetProtocolTvl ttl pid tp ch cached api =
      swapxGetProtocolTvl ttl pid tp ch none api ∧
    (swapxGetProtocolTvl ttl pid tp ch cached api).2 = [] := by
  cases api <;> simp [swapxGetProtocolTvl, h]

/-- C8: a non-positive TTL disables caching in every adapter fetch: the
result never depends on whatever the cache store holds (any cached value
gives the same outcome as an absent one) and the fetch performs no cache
write, for all keys. -/
theorem ttl_nonpositive_disables_caching (ttl : Int) (httl : ttl ≤ 0) :
    (∀ cached api p c pn,
      llamaGetPools ttl cached api p c pn = llamaGetPools ttl none api p c pn ∧
      (llamaGetPools ttl cached api p c pn).2 = []) ∧
    (∀ slug cached api,
      llamaGetProtocolInfo ttl slug cached api =
        llamaGetProtocolInfo ttl slug none api ∧
      (llamaGetProtocolInfo ttl slug cached api).2 = []) ∧
    (∀ cfg pid tp ch cp papi ci iapi,
      llamaGetProtocolTvl ttl cfg pid tp ch cp papi ci iapi =
        llamaGetProtocolTvl ttl cfg pid tp ch none papi none iapi ∧
      (llamaGetProtocolTvl ttl cfg pid tp ch cp papi ci iapi).2 = ([], [])) ∧
    (∀ pid tp ch cached api,
      kingdomGetProtocolTvl ttl pid tp ch cached api =
        kingdomGetProtocolTvl ttl pid tp ch none api ∧
      (kingdomGetProtocolTvl ttl pid tp ch cached api).2 = []) ∧
    (∀ pid tp ch cached api,
      swapxGetProtocolTvl ttl pid tp ch cached api =
        swapxGetProtocolTvl ttl pid tp ch none api ∧
      (swapxGetProtocolTvl ttl pid tp ch cached api).2 = []) := by
  have h : ¬ ttl > 0 := not_lt.mpr httl
  exact ⟨fun cached api p c pn => llamaGetPools_nocache h cached api p c pn,
         fun slug cached api => llamaGetProtocolInfo_nocache h slug cached api,
         fun cfg pid tp ch cp papi ci iapi =>
           llamaGetProtocolTvl_nocache h cfg pid tp ch cp papi ci iapi,
         fun pid tp ch cached api =>
           kingdomGetProtocolTvl_nocache h pid tp ch cached api,
         fun pid tp ch cached api =>
           swapxGetProtocolTvl_nocache h pid tp ch cached api⟩

/-- C8 witness: with TTL 0, a concrete aggregator fetch ignores a populated
cache entry and a concrete Kingdom fetch writes nothing. -/
theorem ttl_nonpositive_disables_caching_witness :
    llamaGetPools 0 (some ⟨[]⟩) (Except.error "down") none none none =
      llamaGetPools 0 none (Except.error "down") none none none ∧
    (kingdomGetProtocolTvl 0 "silo" none none (some [])
      (Except.error "down")).2 = [] :=
  ⟨((ttl_nonpositive_disables_caching 0 (le_refl 0)).1 (some ⟨[]⟩)
      (Except.error "down") none none none).1,
   ((ttl_nonpositive_disables_caching 0 (le_refl 0)).2.2.2.1 "silo" none none
      (some []) (Except.error "down")).2⟩

theorem wellFormed_envelope {α : Type} (l : List α) :
    wellFormed (ResultSet.mk (if l.isEmpty then "no_data" else "success")
      l.length l) := by
  cases l with
  | nil => exact ⟨rfl, Or.inr (Or.inl rfl), fun _ => rfl⟩
  | cons x xs =>
    exact ⟨rfl, Or.inl rfl, fun hh => by simp at hh⟩

theorem wellFormed_error {α : Type} :
    wellFormed (ResultSet.mk "error" 0 ([] : List α)) :=
  ⟨rfl, Or.inr (Or.inr rfl), fun _ => rfl⟩

theorem wf_llamaGetPools (ttl : Int) (cached : Option PoolsPayload)
    (api : Except String PoolsPayload) (p c pn : Option String) :
    wellFormed (llamaGetPools ttl cached api p c pn).1 := by
  unfold llamaGetPools
  dsimp only
  split
  · exact wellFormed_envelope _
  · split
    · exact wellFormed_error
    · exact wellFormed_envelope _

theorem wf_llamaGetProtocolTvl (ttl : Int) (cfg : Option LlamaProtoConfig)
    (pid : String) (tp ch : Option String) (cp : Option PoolsPayload)
    (papi : Except String PoolsPayload) (ci : Option ProtocolInfo)
    (iapi : Except String ProtocolInfo) :
    wellFormed (llamaGetProtocolTvl ttl cfg pid tp ch cp papi ci iapi).1 := by
  unfold llamaGetProtocolTvl
  dsimp only
  split
  · exact wf_llamaGetPools _ _ _ _ _ _
  · split
    · exact wellFormed_error
    · exact ⟨rfl, Or.inl rfl, fun hh => by simp at hh⟩

theorem wf_kingdomGetProtocolTvl (ttl : Int) (pid : String)
    (tp ch : Option String) (cached : Option (List KRawPool))
    (api : Except String (Option (List KRawPool))) :
    wellFormed (kingdomGetProtocolTvl ttl pid tp ch cached api).1 := by
  unfold kingdomGetProtocolTvl
  dsimp only
  split
  · exact wellFormed_envelope _
  · split
    · exact wellFormed_error
    · exact wellFormed_envelope _

theorem wf_swapxGetProtocolTvl (ttl : Int) (pid : String)
    (tp ch : Option String) (cached : Option (List SRawVault))
    (api : Except String (Option (List SRawVault))) :
    wellFormed (swapxGetProtocolTvl ttl pid tp ch cached api).1 := by
  unfold swapxGetProtocolTvl
  dsimp only
  split
  · exact wellFormed_envelope _
  · split
    · exact wellFormed_error
    · exact wellFormed_envelope _

/-- C10: every result set any of the three providers' fetch operations can
return — on the success, no_data and error paths alike — has its count
equal to the length of its data list, a status drawn from exactly
success/no_data/error, and an empty data list whenever the status is
error. -/
theorem result_sets_well_formed :
    (∀ (ttl : Int) cached api p c pn,
      wellFormed (llamaGetPools ttl cached api p c pn).1) ∧
    (∀ (ttl : Int) cfg pid tp ch cp papi ci iapi,
      wellFormed (llamaGetProtocolTvl ttl cfg pid tp ch cp papi ci iapi).1) ∧
    (∀ (ttl : Int) pid tp ch cached api,
      wellFormed (kingdomGetProtocolTvl ttl pid tp ch cached api).1) ∧
    (∀ (ttl : Int) pid tp ch cached api,
      wellFormed (swapxGetProtocolTvl ttl pid tp ch cached api).1) :=
  ⟨wf_llamaGetPools, wf_llamaGetProtocolTvl, wf_kingdomGetProtocolTvl,
   wf_swapxGetProtocolTvl⟩

/-- C10 witness: the invariant instantiated on a concrete error-path fetch,
whose implication hypothesis (status = error) is discharged to yield the
empty data list. -/
theorem result_sets_well_formed_witness :
    (llamaGetPools 3600 none (Except.error "down") none none none).1.data =
      [] :=
  (result_sets_well_formed.1 3600 none (Except.error "down")
    none none none).2.2 rfl

/-- C7: with no filters and a pools path yielding zero records, the
aggregator adapter does fall back to the protocol-level endpoint and return
exactly one synthesized record named "All Pools (Aggregate)" — but its tvl
is currentChainTvls["Sonic"] (0 when that key is absent), not the
protocol's total TVL: here the protocol holds 2,000,000 USD on Ethereum
(2 after the division to millions) and the code reports 0, contradicting
its own comment that the total TVL is used when no chain is specified. -/
theorem llama_fallback_uses_sonic_not_total :
    ((llamaGetProtocolTvl 3600
        (some { defillama_slug := some "silo-finance",
                defillama_project := some "silo-v2" })
        "silo" none none
        none (Except.ok ⟨[]⟩)
        none (Except.ok ⟨[("Ethereum", 2000000)]⟩)).1.status = "success") ∧
    ((llamaGetProtocolTvl 3600
        (some { defillama_slug := some "silo-finance",
                defillama_project := some "silo-v2" })
        "silo" none none
        none (Except.ok ⟨[]⟩)
        none (Except.ok ⟨[("Ethereum", 2000000)]⟩)).1.data.map
          LlamaPoolRec.pool_name = ["All Pools (Aggregate)"]) ∧
    ((llamaGetProtocolTvl 3600
        (some { defillama_slug := some "silo-finance",
                defillama_project := some "silo-v2" })
        "silo" none none
        none (Except.ok ⟨[]⟩)
        none (Except.ok ⟨[("Ethereum", 2000000)]⟩)).1.data.map
          LlamaPoolRec.tvl = [0]) ∧
    ((2000000 : ℚ) / 1000000 = 2) := by
  refine ⟨rfl, rfl, ?_, by norm_num⟩
  show [((List.lookup "Sonic" [("Ethereum", (2000000 : ℚ))]).getD 0) / 1000000]
      = [0]
  have hl : List.lookup "Sonic" [("Ethereum", (2000000 : ℚ))] = none := rfl
  rw [hl]
  norm_num

end Tvl
